import Mathlib

/-!
Shallow embedding of the FAQ chat widget's non-trivial logic:
the Chat Panel's input filtering and send cycle (`ChatboxComponent`),
the mock retrieval-and-synthesis service (`RagService`), the topic
bridge (`TopicsBridgeService` over a latest-value subject), and the
delay utility's settlement behaviour.

Text is modelled as Lean `String` at the API boundary and `List Char`
internally.  JavaScript strings are sequences of UTF-16 units; the
inputs handled here are plain text, for which `List Char` is faithful.
`toLowerCase` is modelled by `Char.toLower` (ASCII case folding, which
covers every string constant in the program).
-/

set_option maxRecDepth 8000

namespace FaqWidget

/-- Characters matched by the JavaScript regex class `\s` (and removed
by `String.prototype.trim`). -/
def isJsSpace (c : Char) : Bool :=
  c = ' ' || c = '\t' || c = '\n' || c = '\x0b' || c = '\x0c' || c = '\r' ||
  c.toNat = 0xa0 || c.toNat = 0x1680 ||
  (0x2000 ≤ c.toNat && c.toNat ≤ 0x200a) ||
  c.toNat = 0x2028 || c.toNat = 0x2029 || c.toNat = 0x202f ||
  c.toNat = 0x205f || c.toNat = 0x3000 || c.toNat = 0xfeff

/-- Lowercasing of a character list, modelling `toLowerCase` on the
ASCII text this program handles. -/
def lowerL (l : List Char) : List Char := l.map Char.toLower

/-- Split a character list at `isJsSpace` characters, one segment per
step of a right fold. -/
def wsSegStep (c : Char) (acc : List (List Char)) : List (List Char) :=
  if isJsSpace c then [] :: acc
  else
    match acc with
    | [] => [[c]]
    | w :: ws => (c :: w) :: ws

/-- The maximal whitespace-free segments of a character list, in order. -/
def wordsL (l : List Char) : List (List Char) :=
  (l.foldr wsSegStep []).filter (fun w => !w.isEmpty)

/-- Join word segments with single spaces. -/
def joinWords : List (List Char) → List Char
  | [] => []
  | [w] => w
  | w :: ws => w ++ ' ' :: joinWords ws

/-- `raw.replace(/\s+/g, ' ').trim()`: collapse whitespace runs to single
spaces and trim the ends, i.e. the words of `raw` joined by single
spaces. -/
def normText (raw : String) : List Char := joinWords (wordsL raw.data)

/-- Characters matched by the JavaScript regex class `\w` (word
characters, delimiting `\b` boundaries). -/
def isWordChar (c : Char) : Bool :=
  ('a' ≤ c && c ≤ 'z') || ('A' ≤ c && c ≤ 'Z') || ('0' ≤ c && c ≤ '9') || c = '_'

/-- Does `w` (already lowercase) occur at the head of `cs`, ignoring
case? -/
def prefixMatch : List Char → List Char → Bool
  | [], _ => true
  | _ :: _, [] => false
  | a :: as, b :: bs => (a = b.toLower) && prefixMatch as bs

/-- Substring containment on character lists, the semantics of
`String.prototype.includes` (the empty needle is contained
everywhere). -/
def containsSub (hay needle : List Char) : Bool :=
  if prefixMatch needle hay then true
  else
    match hay with
    | [] => false
    | _ :: t => containsSub t needle

/-- Case-insensitive substring containment between strings:
`hay.toLowerCase().includes(needle.toLowerCase())`. -/
def containsCI (hay needle : String) : Bool :=
  containsSub (lowerL hay.data) (lowerL needle.data)

/-- A whole banned-word match of `w` at the head of `cs`: `w` occurs
case-insensitively and the character after it (if any) is not a word
character, i.e. the regex`\b` holds after the match. -/
def matchWordAt (w : List Char) (cs : List Char) : Bool :=
  prefixMatch w cs &&
    (match cs.drop w.length with
     | [] => true
     | c :: _ => !isWordChar c)

/-- The banned-word alternation `(badword|curse|offensive)` of
`filterInput`'s `bannedRegex`, tried at the head of `cs` in the listed
order; returns the length of the match. -/
def matchBannedAt (cs : List Char) : Option Nat :=
  if matchWordAt "badword".data cs then some 7
  else if matchWordAt "curse".data cs then some 5
  else if matchWordAt "offensive".data cs then some 9
  else none

/-- One left-to-right masking scan for `text.replace(bannedRegex, '****')`,
written with explicit fuel so that it is structurally recursive: at each
boundary position (previous character, tracked in `prev`, not a word
character) a whole banned word is replaced by the mask token `****` and
scanning resumes after the match.  Each step consumes at least one
character, so fuel `cs.length` never runs out (`maskScanF_eq_of_le`
makes the fuel irrelevance precise). -/
def maskScanF : Nat → Bool → List Char → List Char
  | 0, _, rest => rest
  | _ + 1, _, [] => []
  | fuel + 1, prev, c :: rest =>
    if prev then c :: maskScanF fuel (isWordChar c) rest
    else
      match matchBannedAt (c :: rest) with
      | some n => '*' :: '*' :: '*' :: '*' :: maskScanF fuel true (rest.drop (n - 1))
      | none => c :: maskScanF fuel (isWordChar c) rest

/-- `text.replace(bannedRegex, '****')`. -/
def maskScan (prev : Bool) (cs : List Char) : List Char :=
  maskScanF cs.length prev cs

/-- `bannedRegex.test(text)`: does any boundary position of `cs` start a
whole banned-word match?  `prev` tracks whether the previous character
is a word character. -/
def hasBannedAux (prev : Bool) (cs : List Char) : Bool :=
  match cs with
  | [] => false
  | c :: rest =>
    (!prev && (matchBannedAt (c :: rest)).isSome) || hasBannedAux (isWordChar c) rest

/-- `text.replace(/[<>]/g, '')`. -/
def stripAngles (l : List Char) : List Char :=
  l.filter (fun c => !(c = '<' || c = '>'))

/-- `ChatboxComponent.filterInput`: normalize whitespace; reject when
empty; when a banned word matches, mask and return the masking
feedback; otherwise strip angle brackets.  The result models the TS
record `{ cleaned: string | null; feedback?: string }`. -/
def filterInput (raw : String) : Option String × Option String :=
  let text := normText raw
  if text.isEmpty then (none, none)
  else if hasBannedAux false text then
    (some ⟨maskScan false text⟩, some "Note: Certain words were masked for safety.")
  else (some ⟨stripAngles text⟩, none)

/-- Message roles of `rag.service.ts`. -/
inductive Role
  | user
  | assistant
  | system
deriving DecidableEq, Repr

/-- `ChatMessage` of `rag.service.ts`; the optional TS field `error?`
is modelled as a `Bool` that is `false` when absent. -/
structure ChatMessage where
  role : Role
  content : String
  error : Bool
deriving DecidableEq, Repr

/-- `RagService.mockKnowledgeBase`: the static per-topic snippet table. -/
def mockKnowledgeBase : String → Option (List String) := fun t =>
  if t = "getting-started" then some
    ["Welcome to our platform! To get started, create an account and verify your email.",
     "Use your dashboard to set up initial preferences and connect integrations."]
  else if t = "account" then some
    ["You can update billing details under Settings > Billing.",
     "Invoices are generated monthly and emailed to the account owner."]
  else if t = "security" then some
    ["We support SSO, MFA, and granular role-based access control.",
     "All data is encrypted at rest and in transit."]
  else if t = "api" then some
    ["Use API keys from Settings > API to authenticate your requests.",
     "Rate limiting is enforced at 60 requests per minute."]
  else if t = "troubleshooting" then some
    ["Try clearing cache and re-authenticating if something looks off.",
     "Contact support with your request ID for detailed investigation."]
  else if t = "default" then some
    ["I can help with getting started, account & billing, security, API & integrations, and troubleshooting.",
     "Please ask a question or select a topic."]
  else none

/-- `query.toLowerCase().split(' ')[0] || ''`: the prefix of the
lowercased query up to the first space character (splitting is on the
space character only). -/
def firstSplitTok (q : String) : List Char :=
  (lowerL q.data).takeWhile (fun c => !(c == ' '))

/-- `RagService.retrieveFromChroma` (minus the simulated latency, which
is modelled separately): pick the bucket named by the topic when the
topic is a non-empty string with an entry in the table, else the
`default` bucket; keep the entries containing the first
space-delimited token of the query; when none match, fall back to the
first two entries of the bucket. -/
def retrieveFromChroma (query : String) (topic : Option String) : List String :=
  let key : String :=
    match topic with
    | some t => if !(t == "") && (mockKnowledgeBase t).isSome then t else "default"
    | none => "default"
  let base := (mockKnowledgeBase key).getD []
  let tok := firstSplitTok query
  let subset := base.filter (fun s => containsSub (lowerL s.data) tok)
  if subset.isEmpty then base.take 2 else subset

/-- `RagService.selectMcpTool`: first matching keyword rule, in source
order; each regex `/a|b|c/i.test(question)` is a case-insensitive
substring test. -/
def selectMcpTool (question : String) : String :=
  if containsCI question "billing" || containsCI question "invoice" ||
      containsCI question "payment" then "billing.lookup"
  else if containsCI question "api" || containsCI question "key" ||
      containsCI question "token" || containsCI question "rate" then "api.docs.search"
  else if containsCI question "security" || containsCI question "mfa" ||
      containsCI question "sso" || containsCI question "rbac" then "security.policy.fetch"
  else if containsCI question "troubleshoot" || containsCI question "error" ||
      containsCI question "issue" then "diagnostics.helper"
  else "knowledge.search"

/-- `RagService.synthesizeAnswer`: bullet the snippets and fill the
fixed template (note the typographic apostrophe U+2019 in the source
string). -/
def synthesizeAnswer (docs : List String) (tool : String) : String :=
  let context := String.intercalate "\n" (docs.map (fun d => "• " ++ d))
  "Here’s what I found using " ++ tool ++ ":\n" ++ context ++
    "\n\nIf you need more details, feel free to ask or refine by selecting a topic."

/-- The settled value of `RagService.ask`: retrieve, select a tool,
synthesize, and wrap as an assistant message (the latency only delays
settlement; see `askP` for the settlement model). -/
def ask (question : String) (topic : Option String) : ChatMessage :=
  ⟨Role.assistant, synthesizeAnswer (retrieveFromChroma question topic) (selectMcpTool question), false⟩

/-- FAQ entries of `ChatboxComponent.faqCatalog`. -/
structure FaqEntry where
  title : String
  content : String
deriving DecidableEq, Repr

/-- `ChatboxComponent.faqCatalog`: the static per-topic FAQ table. -/
def faqCatalog : String → Option (List FaqEntry) := fun t =>
  if t = "getting-started" then some
    [⟨"Create an account", "To get started, sign up and verify your email to activate your account."⟩,
     ⟨"Initial setup", "Use the dashboard to configure preferences and connect integrations."⟩]
  else if t = "account" then some
    [⟨"Billing details", "Update billing details under Settings > Billing and download invoices."⟩,
     ⟨"Invoices & charges", "Invoices are generated monthly and emailed to the account owner."⟩]
  else if t = "security" then some
    [⟨"Authentication", "We support SSO and MFA. Enable MFA for higher security."⟩,
     ⟨"Access control", "Use granular role-based access control (RBAC) to restrict permissions."⟩]
  else if t = "api" then some
    [⟨"API keys", "Generate and manage API keys from Settings > API."⟩,
     ⟨"Rate limits", "API rate limiting is enforced at 60 requests per minute."⟩]
  else if t = "troubleshooting" then some
    [⟨"Common fixes", "Clear cache and re-authenticate if something looks off."⟩,
     ⟨"Contact support", "Provide your request ID to support for detailed investigation."⟩]
  else if t = "default" then some
    [⟨"General help", "Ask about getting started, account & billing, security, API & integrations, or troubleshooting."⟩]
  else none

/-- JavaScript truthiness of the `activeTopic : string | null` field:
non-null and non-empty. -/
def topicTruthy : Option String → Bool
  | none => false
  | some t => !(t == "")

/-- The `isContextNote` test inside `computeFilteredHistory`: a system
message matching `/Context updated to topic/i`. -/
def isContextNote (m : ChatMessage) : Bool :=
  m.role == Role.system && containsCI m.content "Context updated to topic"

/-- `ChatboxComponent.computeFilteredHistory` applied to the message
list it reads (`buildFilterDataset` copies `this.messages`). -/
def computeFilteredHistory (msgs : List ChatMessage) (activeTopic : Option String)
    (query : String) : List ChatMessage :=
  msgs.filter (fun m =>
    (topicTruthy activeTopic && isContextNote m) ||
      containsSub (lowerL m.content.data) (lowerL query.data))

/-- `ChatboxComponent.computeFilteredFaqs`. -/
def computeFilteredFaqs (activeTopic : Option String) (query : String) : List FaqEntry :=
  let key : String :=
    match activeTopic with
    | some t => if !(t == "") && (faqCatalog t).isSome then t else "default"
    | none => "default"
  ((faqCatalog key).getD []).filter (fun f =>
    containsCI f.title query || containsCI f.content query)

/-- The mutable fields of `ChatboxComponent` touched by `send`. -/
structure ChatState where
  input : String
  sending : Bool
  messages : List ChatMessage
  activeTopic : Option String
  filterFeedback : Option String
  filterMatches : Bool
  filteredMessages : List ChatMessage
  filteredFaqs : List FaqEntry
  lastQuery : String
deriving DecidableEq, Repr

/-- How the awaited `rag.ask` call settles within one send cycle:
fulfilled with a response message, or rejected/thrown. -/
inductive AskOutcome
  | ok (resp : ChatMessage)
  | failure
deriving DecidableEq, Repr

/-- The user message pushed by `send`. -/
def userMsg (c : String) : ChatMessage := ⟨Role.user, c, false⟩

/-- The system note pushed by `send` when masking occurred. -/
def maskNoteMsg : ChatMessage :=
  ⟨Role.system, "Note: Certain words were masked for safety.", false⟩

/-- The assistant message pushed by `send`'s catch branch. -/
def errorMsg : ChatMessage :=
  ⟨Role.assistant, "Sorry, something went wrong while fetching the answer.", true⟩

/-- The feedback set by `send` when the input is rejected. -/
def rejectFeedback : String := "Please enter a question before sending."

/-- One whole `ChatboxComponent.send` cycle, parameterized by how the
single awaited `rag.ask` call settles.  Returns the state after the
`finally` block together with a flag telling whether `rag.ask` was
invoked.  The cycle is a total function: no exception escapes it.  The
trailing scroll logic only touches the DOM and is omitted. -/
def sendCycle (st : ChatState) (outcome : AskOutcome) : ChatState × Bool :=
  if st.sending then (st, false)
  else
    match filterInput st.input with
    | (none, _) => ({ st with filterFeedback := some rejectFeedback }, false)
    | (some c, fb) =>
      if c == "" then ({ st with filterFeedback := some rejectFeedback }, false)
      else
        let st1 := { st with
          filterFeedback := fb
          lastQuery := c
          filteredFaqs := computeFilteredFaqs st.activeTopic c
          filteredMessages := computeFilteredHistory st.messages st.activeTopic c
          filterMatches := true
          sending := true
          messages := st.messages ++ [userMsg c]
          input := "" }
        let st2 :=
          match fb with
          | some f =>
            if containsCI f "masked" then
              { st1 with messages := st1.messages ++ [maskNoteMsg] }
            else st1
          | none => st1
        let st3 :=
          match outcome with
          | AskOutcome.ok resp => { st2 with messages := st2.messages ++ [resp] }
          | AskOutcome.failure => { st2 with messages := st2.messages ++ [errorMsg] }
        let st4 :=
          if st3.lastQuery == "" then st3
          else { st3 with
            filteredFaqs := computeFilteredFaqs st3.activeTopic st3.lastQuery
            filteredMessages := computeFilteredHistory st3.messages st3.activeTopic st3.lastQuery
            filterMatches := true }
        ({ st4 with sending := false }, true)

/-- Operations on the topic bridge: publishing via `setTopic`, and
subscribing to `topic$`. -/
inductive BridgeOp
  | setTopic (t : Option String)
  | subscribe
deriving DecidableEq, Repr

/-- State of `TopicsBridgeService`'s `BehaviorSubject`: the current
value, and for each subscriber (in subscription order) the list of
values it has observed so far. -/
structure BridgeState where
  current : Option String
  subs : List (List (Option String))
deriving DecidableEq, Repr

/-- `new BehaviorSubject<string | null>('getting-started')`: pre-seeded,
no subscribers yet. -/
def initBridge : BridgeState := ⟨some "getting-started", []⟩

/-- BehaviorSubject semantics: `next` (via `setTopic`) updates the
current value and is observed by every subscriber; a new subscriber
immediately observes the current value. -/
def bridgeStep (st : BridgeState) : BridgeOp → BridgeState
  | BridgeOp.setTopic t => ⟨t, st.subs.map (fun log => log ++ [t])⟩
  | BridgeOp.subscribe => ⟨st.current, st.subs ++ [[st.current]]⟩

/-- Run a sequence of bridge operations from a given state. -/
def runBridgeFrom (st : BridgeState) : List BridgeOp → BridgeState
  | [] => st
  | op :: ops => runBridgeFrom (bridgeStep st op) ops

/-- Run a sequence of bridge operations from the pre-seeded state. -/
def runBridge (ops : List BridgeOp) : BridgeState := runBridgeFrom initBridge ops

/-- The values published by a sequence of operations. -/
def publishedVals (ops : List BridgeOp) : List (Option String) :=
  ops.filterMap (fun op =>
    match op with
    | BridgeOp.setTopic t => some t
    | BridgeOp.subscribe => none)

/-- The most recently published value, or the seed when nothing was
published. -/
def lastPublished (ops : List BridgeOp) : Option String :=
  (publishedVals ops).getLast?.getD (some "getting-started")

/-- Settlement of a JavaScript promise: fulfilled, rejected, or forever
pending. -/
inductive PromiseOut (α : Type)
  | resolved (a : α)
  | rejected
  | pending

/-- `await`: a computation chained after a promise that never settles
itself never settles, and a rejection propagates. -/
def pbind {α β : Type} : PromiseOut α → (α → PromiseOut β) → PromiseOut β
  | PromiseOut.resolved a, f => f a
  | PromiseOut.rejected, _ => PromiseOut.rejected
  | PromiseOut.pending, _ => PromiseOut.pending

/-- `delay(ms)` from `utils/delay.ts`: the executor schedules `resolve`
via `globalThis.setTimeout` when it exists, and otherwise calls a no-op,
so the promise resolves eventually iff `setTimeout` exists; the executor
never throws, so the promise is never rejected. -/
def delayP (hasSetTimeout : Bool) (_ms : Nat) : PromiseOut Unit :=
  if hasSetTimeout then PromiseOut.resolved () else PromiseOut.pending

/-- Settlement of `RagService.ask`: awaits `retrieveFromChroma` (which
awaits `delay(200)`), then awaits `delay(450 + random*300)` (latency
`lat`), then fulfills with the answer. -/
def askP (hasSetTimeout : Bool) (lat : Nat) (question : String)
    (topic : Option String) : PromiseOut ChatMessage :=
  pbind (pbind (delayP hasSetTimeout 200)
      (fun _ => PromiseOut.resolved (retrieveFromChroma question topic)))
    (fun docs =>
      pbind (delayP hasSetTimeout lat)
        (fun _ => PromiseOut.resolved
          ⟨Role.assistant, synthesizeAnswer docs (selectMcpTool question), false⟩))

/-- Claim-side reading of the retrieval step (C2 wording): the filter
token is the first whitespace-delimited token of the lowercase
question. -/
def firstWsToken (q : String) : List Char := (wordsL (lowerL q.data)).headD []

/-- Claim-side retrieval as C2 words it: bucket for the topic when
present and non-empty, else `default`; keep entries containing the
first whitespace-delimited token; when none match, first two entries. -/
def retrieveClaimWs (query : String) (topic : Option String) : List String :=
  let key : String :=
    match topic with
    | some t =>
      match mockKnowledgeBase t with
      | some docs => if docs.isEmpty then "default" else t
      | none => "default"
    | none => "default"
  let base := (mockKnowledgeBase key).getD []
  let subset := base.filter (fun s => containsSub (lowerL s.data) (firstWsToken query))
  if subset.isEmpty then base.take 2 else subset

/-- Amended claim-side retrieval: as `retrieveClaimWs` but the token is
the prefix of the lowercase question up to the first space character. -/
def retrieveClaimSp (query : String) (topic : Option String) : List String :=
  let key : String :=
    match topic with
    | some t =>
      match mockKnowledgeBase t with
      | some docs => if docs.isEmpty then "default" else t
      | none => "default"
    | none => "default"
  let base := (mockKnowledgeBase key).getD []
  let subset := base.filter (fun s =>
    containsSub (lowerL s.data) ((lowerL query.data).takeWhile (fun c => !(c == ' '))))
  if subset.isEmpty then base.take 2 else subset

/-- Claim-side tool selection (C3 wording): first matching keyword rule
in the fixed order. -/
def toolForClaim (q : String) : String :=
  if containsCI q "billing" || containsCI q "invoice" || containsCI q "payment" then
    "billing.lookup"
  else if containsCI q "api" || containsCI q "key" || containsCI q "token" ||
      containsCI q "rate" then "api.docs.search"
  else if containsCI q "security" || containsCI q "mfa" || containsCI q "sso" ||
      containsCI q "rbac" then "security.policy.fetch"
  else if containsCI q "troubleshoot" || containsCI q "error" || containsCI q "issue" then
    "diagnostics.helper"
  else "knowledge.search"

/-- Claim-side answer content for the amended C3: the fixed template
around the tool label and the bulleted retrieved snippets, with the
typographic apostrophe the source string actually contains. -/
def claimAnswerContent (q : String) (t : Option String) : String :=
  "Here’s what I found using " ++ toolForClaim q ++ ":\n" ++
    String.intercalate "\n" ((retrieveFromChroma q t).map (fun d => "• " ++ d)) ++
    "\n\nIf you need more details, feel free to ask or refine by selecting a topic."

/-- C3 as frozen words it: the same template but with the ASCII
apostrophe. -/
def claimAnswerContentAscii (q : String) (t : Option String) : String :=
  "Here" ++ "\x27" ++ "s what I found using " ++ toolForClaim q ++ ":\n" ++
    String.intercalate "\n" ((retrieveFromChroma q t).map (fun d => "• " ++ d)) ++
    "\n\nIf you need more details, feel free to ask or refine by selecting a topic."

/-- Claim-side transcript-filter predicate (C8 wording): content
contains the query case-insensitively, or, when a topic is active, the
message is a system message recording a topic-context change. -/
def histClaimPred (topic : Option String) (q : String) (m : ChatMessage) : Bool :=
  containsCI m.content q || (topicTruthy topic && isContextNote m)

/-- Claim-side FAQ bucket key (C8 wording): the active topic when it has
a bucket, else `default`. -/
def faqClaimKey (topic : Option String) : String :=
  match topic with
  | some t => if (faqCatalog t).isSome then t else "default"
  | none => "default"

/-- Claim-side FAQ-filter predicate (C8 wording): title or content
contains the query case-insensitively. -/
def faqClaimPred (q : String) (f : FaqEntry) : Bool :=
  containsCI f.title q || containsCI f.content q

/-- Invariant of the topic bridge: every subscriber's most recent
observation is the channel's current value. -/
def bridgeInv (st : BridgeState) : Prop :=
  ∀ log ∈ st.subs, log.getLast? = some st.current

/-- A fresh chatbox state with the given input, as after construction
(seed assistant greeting, no active topic, not sending). -/
def mkState (inp : String) : ChatState :=
  ⟨inp, false,
   [⟨Role.assistant, "Hi! I’m your AI FAQ assistant. Ask me anything or pick a topic from the left to get started.", false⟩],
   none, none, false, [], [], ""⟩

/-! Supporting lemmas. -/

theorem maskScanF_eq_of_le :
    ∀ (f g : Nat) (prev : Bool) (cs : List Char),
      cs.length ≤ f → cs.length ≤ g → maskScanF f prev cs = maskScanF g prev cs := by
  intro f
  induction f with
  | zero =>
    intro g prev cs hf hg
    have : cs = [] := List.eq_nil_of_length_eq_zero (Nat.le_zero.mp hf)
    subst this
    cases g <;> rfl
  | succ f ih =>
    intro g prev cs hf hg
    cases cs with
    | nil => cases g <;> rfl
    | cons c rest =>
      cases g with
      | zero => simp at hg
      | succ g =>
        have hf' : rest.length ≤ f := Nat.le_of_succ_le_succ (by simpa using hf)
        have hg' : rest.length ≤ g := Nat.le_of_succ_le_succ (by simpa using hg)
        simp only [maskScanF]
        split
        · rw [ih g (isWordChar c) rest hf' hg']
        · cases hm : matchBannedAt (c :: rest) with
          | some n =>
            have hd : (rest.drop (n - 1)).length ≤ f := by
              rw [List.length_drop]
              omega
            have hd' : (rest.drop (n - 1)).length ≤ g := by
              rw [List.length_drop]
              omega
            simp only [hm]
            rw [ih g true (rest.drop (n - 1)) hd hd']
          | none =>
            simp only [hm]
            rw [ih g (isWordChar c) rest hf' hg']

/-- The natural unfolding of `maskScan`, showing the fuel is an
implementation artifact. -/
theorem maskScan_cons (prev : Bool) (c : Char) (rest : List Char) :
    maskScan prev (c :: rest) =
      (if prev then c :: maskScan (isWordChar c) rest
       else
        match matchBannedAt (c :: rest) with
        | some n => '*' :: '*' :: '*' :: '*' :: maskScan true (rest.drop (n - 1))
        | none => c :: maskScan (isWordChar c) rest) := by
  cases prev with
  | true => rfl
  | false =>
    have h1 : maskScan false (c :: rest) =
        (match matchBannedAt (c :: rest) with
         | some n => '*' :: '*' :: '*' :: '*' :: maskScanF rest.length true (rest.drop (n - 1))
         | none => c :: maskScanF rest.length (isWordChar c) rest) := rfl
    rw [h1]
    show _ = (match matchBannedAt (c :: rest) with
      | some n => '*' :: '*' :: '*' :: '*' :: maskScan true (rest.drop (n - 1))
      | none => c :: maskScan (isWordChar c) rest)
    cases hm : matchBannedAt (c :: rest) with
    | some n =>
      simp only [hm]
      exact congrArg (fun l => '*' :: '*' :: '*' :: '*' :: l)
        (maskScanF_eq_of_le rest.length (rest.drop (n - 1)).length true
          (rest.drop (n - 1)) (by rw [List.length_drop]; omega) (Nat.le_refl _))
    | none =>
      simp only [hm]
      rfl

theorem maskScan_cons_ne_nil (prev : Bool) (c : Char) (rest : List Char) :
    maskScan prev (c :: rest) ≠ [] := by
  unfold maskScan
  simp only [List.length_cons]
  unfold maskScanF
  split
  · simp
  · split <;> simp

theorem mockKnowledgeBase_ne_nil {t : String} {docs : List String}
    (h : mockKnowledgeBase t = some docs) : docs ≠ [] := by
  unfold mockKnowledgeBase at h
  repeat' split at h
  all_goals first
    | (cases h; simp)
    | cases h

theorem mockKnowledgeBase_empty_key : mockKnowledgeBase "" = none := by decide

theorem faqCatalog_empty_key : faqCatalog "" = none := by decide

theorem getD_getLast?_cons {α : Type} (a d : α) (l : List α) :
    (a :: l).getLast?.getD d = l.getLast?.getD a := by
  cases l with
  | nil => rfl
  | cons b bl =>
    rw [List.getLast?_cons_cons]
    have hne : (b :: bl).getLast?.isSome := by
      rw [List.getLast?_isSome]
      simp
    obtain ⟨x, hx⟩ := Option.isSome_iff_exists.mp hne
    rw [hx]
    rfl

/-! Claim theorems. -/

/-- C1, counterexample: on the input `badword <x>` the banned word is
masked and `filterInput` returns early, so the cleaned output still
contains the character `<` — the claim that every accepted input has
`<` and `>` removed, in particular masked ones, is false. -/
theorem filterInput_masked_keeps_angles :
    (filterInput "badword <x>").1 = some "**** <x>" ∧ '<' ∈ "**** <x>".data := by
  decide

/-- C1, amended: for every accepted input in which no banned word
matched, the cleaned output contains neither `<` nor `>` (on the masked
path the angle brackets are retained, since `filterInput` returns
before the stripping step). -/
theorem filterInput_cleans_angles_of_unmasked (raw : String) (c : String)
    (hb : hasBannedAux false (normText raw) = false)
    (hc : (filterInput raw).1 = some c) :
    '<' ∉ c.data ∧ '>' ∉ c.data := by
  unfold filterInput at hc
  by_cases he : (normText raw).isEmpty
  · simp [he] at hc
  · simp only [he, hb, if_false, Bool.false_eq_true] at hc
    injection hc with h
    subst h
    constructor <;> intro hmem <;>
      exact absurd (List.mem_filter.mp hmem).2 (by decide)

/-- C1 witness: the input `a <b>` is accepted without masking and its
cleaned form `a b` has both angle brackets removed. -/
theorem filterInput_cleans_angles_witness :
    hasBannedAux false (normText "a <b>") = false ∧
    (filterInput "a <b>").1 = some "a b" ∧
    ('<' ∉ "a b".data ∧ '>' ∉ "a b".data) :=
  ⟨by decide, by decide,
    filterInput_cleans_angles_of_unmasked "a <b>" "a b" (by decide) (by decide)⟩

/-- C2, counterexample: the code splits the query at the space character
only, not at arbitrary whitespace.  For the question `welcome\tto` with
topic `getting-started` the claim's first whitespace-delimited token is
`welcome`, which selects exactly the first bucket entry, while the code
uses the token `welcome\tto`, matches nothing, and falls back to the
first two entries. -/
theorem retrieveFromChroma_tab_token_diff :
    retrieveClaimWs "welcome\tto" (some "getting-started") =
      ["Welcome to our platform! To get started, create an account and verify your email."] ∧
    retrieveFromChroma "welcome\tto" (some "getting-started") =
      ["Welcome to our platform! To get started, create an account and verify your email.",
       "Use your dashboard to set up initial preferences and connect integrations."] := by
  constructor <;> decide

theorem retrieve_eq_claimSp (q : String) (t : Option String) :
    retrieveFromChroma q t = retrieveClaimSp q t := by
  cases t with
  | none => rfl
  | some s =>
    cases hmk : mockKnowledgeBase s with
    | none =>
      simp [retrieveFromChroma, retrieveClaimSp, hmk, firstSplitTok]
    | some docs =>
      have hne : docs ≠ [] := mockKnowledgeBase_ne_nil hmk
      have hs : s ≠ "" := by
        intro h
        rw [h, mockKnowledgeBase_empty_key] at hmk
        cases hmk
      simp [retrieveFromChroma, retrieveClaimSp, hmk, firstSplitTok, hs,
        List.isEmpty_eq_false.mpr hne]

theorem kbGetD_ne_nil {key : String} (hk : (mockKnowledgeBase key).isSome = true) :
    (mockKnowledgeBase key).getD [] ≠ [] := by
  cases hmk : mockKnowledgeBase key with
  | none => rw [hmk] at hk; cases hk
  | some docs => simpa using mockKnowledgeBase_ne_nil hmk

theorem filterFallback_ne_nil (base : List String) (p : String → Bool)
    (hb : base ≠ []) :
    (if (base.filter p).isEmpty then base.take 2 else base.filter p) ≠ [] := by
  split
  · cases base with
    | nil => exact absurd rfl hb
    | cons a as => simp [List.take]
  · rename_i h
    intro hnil
    exact h (by rw [hnil]; rfl)

theorem retrieveFromChroma_ne_nil (q : String) (t : Option String) :
    retrieveFromChroma q t ≠ [] := by
  unfold retrieveFromChroma
  cases t with
  | none => exact filterFallback_ne_nil _ _ (by decide)
  | some s =>
    by_cases h : (!(s == "") && (mockKnowledgeBase s).isSome) = true
    · have hks : (mockKnowledgeBase s).isSome = true := by
        cases hx : (mockKnowledgeBase s).isSome with
        | true => rfl
        | false => rw [hx, Bool.and_false] at h; cases h
      have hbase :
          (mockKnowledgeBase
            (if (!(s == "") && (mockKnowledgeBase s).isSome) = true then s
             else "default")).getD [] ≠ [] := by
        rw [if_pos h]
        exact kbGetD_ne_nil hks
      exact filterFallback_ne_nil _ _ hbase
    · have hbase :
          (mockKnowledgeBase
            (if (!(s == "") && (mockKnowledgeBase s).isSome) = true then s
             else "default")).getD [] ≠ [] := by
        rw [if_neg h]
        decide
      exact filterFallback_ne_nil _ _ hbase

/-- C2, amended: the retrieval step selects the topic's bucket when the
topic names a bucket that is present and non-empty, else `default`;
keeps the entries whose lowercase text contains the prefix of the
lowercase question up to the first space character (the empty token
matching everything); falls back to the first two bucket entries when
nothing matches; and consequently never returns an empty list. -/
theorem retrieveFromChroma_spec (q : String) (t : Option String) :
    retrieveFromChroma q t = retrieveClaimSp q t ∧ retrieveFromChroma q t ≠ [] :=
  ⟨retrieve_eq_claimSp q t, retrieveFromChroma_ne_nil q t⟩

/-- C3, counterexample: the source template starts with `Here’s`
(typographic apostrophe U+2019), so the answer for the question `hello`
differs from the claim's ASCII-apostrophe template. -/
theorem ask_template_apostrophe_diff :
    (ask "hello" none).content ≠ claimAnswerContentAscii "hello" none := by
  decide

/-- C3, amended: every answer is an assistant message whose content is
the fixed template (with the typographic apostrophe of the source)
around the tool label chosen by the first matching keyword rule in the
fixed order, with the retrieved snippets bulleted in order. -/
theorem ask_template_spec (q : String) (t : Option String) :
    (ask q t).role = Role.assistant ∧ (ask q t).content = claimAnswerContent q t :=
  ⟨rfl, rfl⟩

/-- C4, counterexample: for a whitespace-only input, `filterInput`
itself returns no feedback at all (the rejection feedback is set by
`send`), so the claim that `filterInput` yields rejection feedback is
false. -/
theorem filterInput_blank_no_feedback :
    (filterInput "   ").1 = none ∧ (filterInput "   ").2 = none := by
  decide

/-- C4, amended: for every raw input consisting only of whitespace,
`filterInput` yields no cleaned text and no feedback; the `send`
routine then rejects the submit locally, setting the rejection feedback
`Please enter a question before sending.` itself, leaving the
transcript unchanged and never invoking the Service's `ask`. -/
theorem send_rejects_blank_input (raw : String) (st : ChatState) (outcome : AskOutcome)
    (hw : normText raw = []) (hs : st.sending = false) (hi : st.input = raw) :
    filterInput raw = (none, none) ∧
    (sendCycle st outcome).1.messages = st.messages ∧
    (sendCycle st outcome).2 = false ∧
    (sendCycle st outcome).1.filterFeedback = some rejectFeedback := by
  have hfi : filterInput raw = (none, none) := by
    unfold filterInput
    simp [hw]
  refine ⟨hfi, ?_, ?_, ?_⟩ <;> simp [sendCycle, hs, hi, hfi]

/-- C4 witness: the whitespace-only input `"  \t "` is rejected locally
by a fresh chatbox. -/
theorem send_rejects_blank_input_witness :
    normText "  \t " = [] ∧ (mkState "  \t ").sending = false ∧
    (filterInput "  \t " = (none, none) ∧
     (sendCycle (mkState "  \t ") AskOutcome.failure).1.messages = (mkState "  \t ").messages ∧
     (sendCycle (mkState "  \t ") AskOutcome.failure).2 = false ∧
     (sendCycle (mkState "  \t ") AskOutcome.failure).1.filterFeedback = some rejectFeedback) :=
  ⟨by decide, by decide,
    send_rejects_blank_input "  \t " (mkState "  \t ") AskOutcome.failure
      (by decide) (by decide) (by decide)⟩

/-- C6: asking with the bucketless topic id `unknown-id` is identical to
asking with no topic: the retrieval falls back to the `default` bucket
in both cases and the answers coincide. -/
theorem ask_unknown_topic_eq_default (q : String) :
    retrieveFromChroma q (some "unknown-id") = retrieveFromChroma q none ∧
    ask q (some "unknown-id") = ask q none :=
  ⟨rfl, rfl⟩

/-- C10: in an environment without `setTimeout` (the non-browser SSR
fallback), `delay(ms)` never settles — it neither resolves nor rejects
— and therefore `ask`, which awaits it, never settles either, for every
latency, question and topic. -/
theorem ask_never_settles_without_setTimeout :
    (∀ ms : Nat, delayP false ms = PromiseOut.pending) ∧
    (∀ (lat : Nat) (q : String) (t : Option String),
      askP false lat q t = PromiseOut.pending) :=
  ⟨fun _ => rfl, fun _ _ _ => rfl⟩

/-- C5: when the (normalized) input contains a banned word as a whole
word, case-insensitively, `filterInput` returns the text with each
match replaced by the mask token together with the masking feedback,
and the send still proceeds: `rag.ask` is invoked and the masked user
message enters the transcript. -/
theorem filterInput_masks_banned_and_sends (raw : String) (st : ChatState)
    (outcome : AskOutcome)
    (hb : hasBannedAux false (normText raw) = true)
    (hs : st.sending = false) (hi : st.input = raw) :
    filterInput raw =
      (some ⟨maskScan false (normText raw)⟩,
       some "Note: Certain words were masked for safety.") ∧
    (sendCycle st outcome).2 = true ∧
    userMsg ⟨maskScan false (normText raw)⟩ ∈ (sendCycle st outcome).1.messages := by
  have hne : normText raw ≠ [] := by
    intro h
    rw [h] at hb
    cases hb
  have hie : (normText raw).isEmpty = false := by
    cases hx : normText raw with
    | nil => exact absurd hx hne
    | cons a l => rfl
  have hfi : filterInput raw =
      (some ⟨maskScan false (normText raw)⟩,
       some "Note: Certain words were masked for safety.") := by
    unfold filterInput
    simp [hie, hb]
  have hmne : maskScan false (normText raw) ≠ [] := by
    cases hx : normText raw with
    | nil => exact absurd hx hne
    | cons a l => exact maskScan_cons_ne_nil false a l
  have hceq : ((⟨maskScan false (normText raw)⟩ : String) == "") = false := by
    apply beq_eq_false_iff_ne.mpr
    intro h
    exact hmne (congrArg String.data h)
  have hmask : containsCI "Note: Certain words were masked for safety." "masked" = true := by
    decide
  refine ⟨hfi, ?_, ?_⟩ <;>
    cases outcome <;>
      simp [sendCycle, hs, hi, hfi, hceq, hmask]

/-- C5 witness: the input `Curse you` is masked to `**** you`, the
masking feedback is attached, and a fresh chatbox still sends it. -/
theorem filterInput_masks_banned_witness :
    hasBannedAux false (normText "Curse you") = true ∧
    (mkState "Curse you").sending = false ∧
    (filterInput "Curse you" =
       (some ⟨maskScan false (normText "Curse you")⟩,
        some "Note: Certain words were masked for safety.") ∧
     (sendCycle (mkState "Curse you") AskOutcome.failure).2 = true ∧
     userMsg ⟨maskScan false (normText "Curse you")⟩ ∈
       (sendCycle (mkState "Curse you") AskOutcome.failure).1.messages) :=
  ⟨by decide, by decide,
    filterInput_masks_banned_and_sends "Curse you" (mkState "Curse you")
      AskOutcome.failure (by decide) (by decide) (by decide)⟩

/-- C7: a send cycle never lets the busy flag stick — after the cycle,
`sending` is false in every outcome (rejection, success, failure) —
and when the awaited Service call fails, the transcript grows by the
messages of the cycle among which exactly one has the assistant role,
namely the fixed error message with the error flag set.  `sendCycle`
being a total function models that the exception does not propagate. -/
theorem send_failure_appends_error_and_clears_busy (st : ChatState)
    (outcome : AskOutcome) (hs : st.sending = false) :
    (sendCycle st outcome).1.sending = false ∧
    (outcome = AskOutcome.failure →
      ∀ c fb, filterInput st.input = (some c, fb) → c ≠ "" →
        ∃ mid, (sendCycle st outcome).1.messages = st.messages ++ mid ++ [errorMsg] ∧
          mid.all (fun m => !(m.role == Role.assistant)) = true) := by
  constructor
  · rcases hfi : filterInput st.input with ⟨copt, fb⟩
    cases copt with
    | none => simp [sendCycle, hs, hfi]
    | some c =>
      by_cases hc : (c == "") = true
      · simp [sendCycle, hs, hfi, hc]
      · have hcb : (c == "") = false := by
          cases hx : (c == "") with
          | true => exact absurd hx hc
          | false => rfl
        simp [sendCycle, hs, hfi, hcb]
  · intro ho c fb hfi hc
    subst ho
    have hcb : (c == "") = false := beq_eq_false_iff_ne.mpr hc
    cases fb with
    | none =>
      refine ⟨[userMsg c], ?_, by rfl⟩
      simp [sendCycle, hs, hfi, hcb]
    | some f =>
      by_cases hm : containsCI f "masked" = true
      · refine ⟨[userMsg c, maskNoteMsg], ?_, by rfl⟩
        simp [sendCycle, hs, hfi, hcb, hm]
      · have hm' : containsCI f "masked" = false := by
          cases hx : containsCI f "masked" with
          | true => exact absurd hx hm
          | false => rfl
        refine ⟨[userMsg c], ?_, by rfl⟩
        simp [sendCycle, hs, hfi, hcb, hm']

/-- C7 witness: a fresh chatbox sending `hello there` whose Service
call fails ends with the busy flag clear and the transcript extended by
the user message and exactly one assistant message, the fixed error
message. -/
theorem send_failure_witness :
    (mkState "hello there").sending = false ∧
    (sendCycle (mkState "hello there") AskOutcome.failure).1.sending = false ∧
    (∃ mid,
      (sendCycle (mkState "hello there") AskOutcome.failure).1.messages =
        (mkState "hello there").messages ++ mid ++ [errorMsg] ∧
      mid.all (fun m => !(m.role == Role.assistant)) = true) :=
  ⟨by decide,
    (send_failure_appends_error_and_clears_busy (mkState "hello there")
      AskOutcome.failure (by decide)).1,
    (send_failure_appends_error_and_clears_busy (mkState "hello there")
      AskOutcome.failure (by decide)).2 rfl "hello there" none (by decide) (by decide)⟩

theorem histPred_eq (topic : Option String) (q : String) (m : ChatMessage) :
    ((topicTruthy topic && isContextNote m) ||
      containsSub (lowerL m.content.data) (lowerL q.data)) = histClaimPred topic q m := by
  unfold histClaimPred containsCI
  exact Bool.or_comm _ _

/-- C8: the filtered transcript computed on send is exactly the filter
of the transcript by the claim's predicate (case-insensitive content
match, plus topic-context system notes whenever a topic is active), and
the filtered FAQ list is exactly the filter of the bucket selected by
the active topic (falling back to `default` when the topic has no
bucket) by the title-or-content case-insensitive match; both are
sublists of the data they filter, which is read but never modified. -/
theorem filtered_views_spec (msgs : List ChatMessage) (topic : Option String)
    (q : String) :
    computeFilteredHistory msgs topic q = msgs.filter (histClaimPred topic q) ∧
    (computeFilteredHistory msgs topic q).Sublist msgs ∧
    computeFilteredFaqs topic q =
      ((faqCatalog (faqClaimKey topic)).getD []).filter (faqClaimPred q) ∧
    (computeFilteredFaqs topic q).Sublist ((faqCatalog (faqClaimKey topic)).getD []) := by
  have h1 : computeFilteredHistory msgs topic q = msgs.filter (histClaimPred topic q) := by
    unfold computeFilteredHistory
    induction msgs with
    | nil => rfl
    | cons m ms ih => simp [List.filter, histPred_eq, ih]
  have h3 : computeFilteredFaqs topic q =
      ((faqCatalog (faqClaimKey topic)).getD []).filter (faqClaimPred q) := by
    cases topic with
    | none => rfl
    | some t =>
      by_cases hfc : (faqCatalog t).isSome = true
      · have ht : ¬ t = "" := by
          intro h
          rw [h, faqCatalog_empty_key] at hfc
          cases hfc
        unfold computeFilteredFaqs faqClaimKey faqClaimPred containsCI
        simp [hfc, ht]
      · have hfc' : (faqCatalog t).isSome = false := by
          cases hx : (faqCatalog t).isSome with
          | true => exact absurd hx hfc
          | false => rfl
        unfold computeFilteredFaqs faqClaimKey faqClaimPred containsCI
        simp [hfc']
  refine ⟨h1, ?_, h3, ?_⟩
  · rw [h1]
    exact List.filter_sublist _
  · rw [h3]
    exact List.filter_sublist _

theorem bridgeInv_step (st : BridgeState) (op : BridgeOp) (h : bridgeInv st) :
    bridgeInv (bridgeStep st op) := by
  cases op with
  | setTopic t =>
    intro log hlog
    simp only [bridgeStep] at hlog ⊢
    rcases List.mem_map.mp hlog with ⟨l0, _, rfl⟩
    simp
  | subscribe =>
    intro log hlog
    simp only [bridgeStep] at hlog ⊢
    rcases List.mem_append.mp hlog with h1 | h2
    · exact h log h1
    · have hx : log = [st.current] := by simpa using h2
      subst hx
      rfl

theorem bridgeInv_run (ops : List BridgeOp) :
    ∀ st : BridgeState, bridgeInv st → bridgeInv (runBridgeFrom st ops) := by
  induction ops with
  | nil => intro st h; exact h
  | cons op ops ih =>
    intro st h
    exact ih _ (bridgeInv_step st op h)

theorem runBridgeFrom_current (ops : List BridgeOp) :
    ∀ st : BridgeState,
      (runBridgeFrom st ops).current = (publishedVals ops).getLast?.getD st.current := by
  induction ops with
  | nil => intro st; rfl
  | cons op ops ih =>
    intro st
    cases op with
    | setTopic t =>
      rw [show runBridgeFrom st (BridgeOp.setTopic t :: ops) =
        runBridgeFrom (bridgeStep st (BridgeOp.setTopic t)) ops from rfl, ih]
      rw [show publishedVals (BridgeOp.setTopic t :: ops) = t :: publishedVals ops from rfl]
      rw [getD_getLast?_cons]
      rfl
    | subscribe =>
      rw [show runBridgeFrom st (BridgeOp.subscribe :: ops) =
        runBridgeFrom (bridgeStep st BridgeOp.subscribe) ops from rfl, ih]
      rfl

/-- C9: the topic bridge is a single current-value channel pre-seeded
with `getting-started`: after any sequence of operations the current
value is the most recently published one (or the seed), every existing
subscriber's latest observation is that value, and a subscriber created
by one of the operations immediately observed the then-current value,
so its log is non-empty and also ends in the latest value. -/
theorem bridge_latest_value_spec (ops : List BridgeOp) :
    (runBridge ops).current = lastPublished ops ∧
    ∀ log ∈ (runBridge ops).subs, log.getLast? = some (runBridge ops).current := by
  constructor
  · unfold runBridge lastPublished
    rw [runBridgeFrom_current]
    rfl
  · exact bridgeInv_run ops initBridge (by intro log h; simp [initBridge] at h)

/-- C9 witness: for the operation sequence subscribe, publish `api`,
subscribe, the first subscriber's log `[getting-started, api]` ends in
the current value `api`, which is the last published value. -/
theorem bridge_latest_value_witness :
    (runBridge [BridgeOp.subscribe, BridgeOp.setTopic (some "api"),
        BridgeOp.subscribe]).current =
      lastPublished [BridgeOp.subscribe, BridgeOp.setTopic (some "api"),
        BridgeOp.subscribe] ∧
    [some "getting-started", some "api"].getLast? =
      some (runBridge [BridgeOp.subscribe, BridgeOp.setTopic (some "api"),
        BridgeOp.subscribe]).current :=
  ⟨(bridge_latest_value_spec [BridgeOp.subscribe, BridgeOp.setTopic (some "api"),
      BridgeOp.subscribe]).1,
   (bridge_latest_value_spec [BridgeOp.subscribe, BridgeOp.setTopic (some "api"),
      BridgeOp.subscribe]).2 [some "getting-started", some "api"] (by decide)⟩

end FaqWidget
